import Mathlib

/-! # confd-sidecar: the coordination core of the supervisor

A shallow embedding of `src/confd-sidecar.go`:

* `logExit` (lines 39-60), over the dynamic shape of the `error` it inspects;
* the settling loop of `main` (lines 198-209) and the launch of the main
  program (line 211);
* the main `select` loop of `main` (lines 219-262), one `step` per iteration;
* the exit status resolution at the end of `main` (lines 263-269).

Time is counted in milliseconds (`Nat`).  A signal "sent" by the supervisor is
a call of `Process.Signal`; the calls are collected in a trace of `Action`s.
-/

namespace ConfdSidecar

/-! ## Data model -/

/-- The dynamic shape of the `error` handed to `logExit`: `nil`, an
`*exec.ExitError` (with the outcome of the type assertion
`exiterr.Sys().(syscall.WaitStatus)` and the value of `status.ExitStatus()`,
which is `-1` when the process did not exit by itself), or any other error. -/
inductive WaitError where
  | nil
  | exitError (sysIsWaitStatus : Bool) (exitStatus : Int)
  | other
  deriving DecidableEq, Repr

/-- What happened to a child process, as seen by `cmd.Wait()`. -/
inductive WaitOutcome where
  | exited (code : Nat)
  | signaled
  | waitFailed
  deriving DecidableEq, Repr

/-- The contract of `exec.Cmd.Wait` of the Go standard library, which produces
the `err` that lines 194 and 215 pass on to `logExit`: `nil` for exit status
0, an `ExitError` holding the wait status for any other exit and for a death
by signal (where `ExitStatus()` is `-1`), and another error when waiting
itself failed. -/
def waitResult : WaitOutcome → WaitError
  | .exited 0 => .nil
  | .exited (c + 1) => .exitError true ((c : Int) + 1)
  | .signaled => .exitError true (-1)
  | .waitFailed => .other

/-- The calls the supervisor makes on its children. -/
inductive Action where
  | startMainProgram
  | sighupMainProgram
  | sigtermConfd
  | sigtermMainProgram
  deriving DecidableEq, Repr

/-- The cases of the main `select` (lines 225-257).  `configChanged` carries
the `time.Now()` value the scanner goroutine put into the channel. -/
inductive Event where
  | configChanged (configChangedTime : Nat)
  | settleTimeout
  | signalReceived
  | confdEnded (err : WaitError)
  | mainProgramEnded (err : WaitError)
  deriving DecidableEq, Repr

/-- The variables of the main loop.  `confdSettleTimeout` is `none` for the
`nil` channel and `some d` for a `time.After` channel that becomes ready at
time `d`; `confdEndedOpen` and `mainProgramEndedOpen` tell whether the two
exit channels are still non-`nil`. -/
structure LoopState where
  mainProgramStartTime : Nat
  confdSignaled : Bool
  mainProgramSignaled : Bool
  confdExitStatus : Int
  mainProgramExitStatus : Int
  confdSettleTimeout : Option Nat
  confdEndedOpen : Bool
  mainProgramEndedOpen : Bool
  deriving DecidableEq, Repr

/-- The duration `1 * time.Second`, in milliseconds. -/
def settleWindow : Nat := 1000

/-- Exit code of the usage message (line 159). -/
def usageExitCode : Int := 64

/-- Exit code of a failed `createFile` (lines 171 and 177). -/
def provisioningExitCode : Int := 32

/-! ## Operations -/

/-- Lines 39-60. -/
def logExit (err : WaitError) : Int :=
  match err with
  | .exitError ok status => if ok && decide (status > 0) then status else 254
  | .other => 253
  | .nil => 0

/-- Lines 263-269: the exit code of the supervisor once the main loop is
over (falling off the end of `main` is exit code 0). -/
def exitCode (confdExitStatus mainProgramExitStatus : Int) : Int :=
  if mainProgramExitStatus != 0 then mainProgramExitStatus
  else if confdExitStatus != 0 then confdExitStatus
  else 0

/-- The resolution rule in the words of the specification:
`resolve(w, k) = k if k != 0 else (w if w != 0 else 0)`. -/
def resolve (w k : Int) : Int :=
  if k ≠ 0 then k else (if w ≠ 0 then w else 0)

/-- The variables as lines 212-223 initialise them. -/
def initLoop (mainProgramStartTime : Nat) : LoopState :=
  { mainProgramStartTime := mainProgramStartTime
    confdSignaled := false
    mainProgramSignaled := false
    confdExitStatus := 0
    mainProgramExitStatus := 0
    confdSettleTimeout := none
    confdEndedOpen := true
    mainProgramEndedOpen := true }

/-- One iteration of the `select` of lines 225-257 at time `now`, taking the
case `ev`.  The result is `none` when that case cannot be taken: a receive
from a `nil` channel, or from a timer channel that is not ready yet. -/
def step (s : LoopState) (now : Nat) (ev : Event) : Option (LoopState × List Action) :=
  match ev with
  | .configChanged configChangedTime =>
    if configChangedTime > s.mainProgramStartTime then
      some ({ s with confdSettleTimeout := some (now + settleWindow) }, [])
    else
      some (s, [])
  | .settleTimeout =>
    match s.confdSettleTimeout with
    | some d =>
      if d ≤ now then
        some ({ s with confdSettleTimeout := none }, [.sighupMainProgram])
      else none
    | none => none
  | .signalReceived =>
    some ({ s with confdSignaled := true, mainProgramSignaled := true },
      [.sigtermConfd, .sigtermMainProgram])
  | .confdEnded err =>
    if s.confdEndedOpen then
      some ({ s with confdExitStatus := logExit err, confdSignaled := true,
                     confdEndedOpen := false },
        if !s.mainProgramSignaled then [.sigtermMainProgram] else [])
    else none
  | .mainProgramEnded err =>
    if s.mainProgramEndedOpen then
      some ({ s with mainProgramExitStatus := logExit err, mainProgramSignaled := true,
                     mainProgramEndedOpen := false },
        if !s.confdSignaled then [.sigtermConfd] else [])
    else none

/-- Line 258: `confdEnded == nil && mainProgramEnded == nil`. -/
def loopEnded (s : LoopState) : Bool :=
  !s.confdEndedOpen && !s.mainProgramEndedOpen

/-- A run of the main loop along a given sequence of `select` choices, each
with the time at which it is taken.  The loop iterates only while line 258
has not ended it; the result is `none` when a choice cannot be taken. -/
def run (s : LoopState) : List (Nat × Event) → Option (LoopState × List Action)
  | [] => some (s, [])
  | (now, ev) :: rest =>
    if loopEnded s then none
    else
      match step s now ev with
      | none => none
      | some (s1, acts1) =>
        match run s1 rest with
        | none => none
        | some (s2, acts2) => some (s2, acts1 ++ acts2)

/-- The exit code with which the supervisor leaves after the main loop. -/
def supervisorExit (s : LoopState) : Int :=
  exitCode s.confdExitStatus s.mainProgramExitStatus

/-! ## Timed execution

The `select` blocks until a channel is ready.  An armed timer channel is ready
from its deadline on, so with the arrival times of the other events given, the
timer case is taken at its deadline when the deadline comes strictly before
the next arrival; when both are ready at the same instant Go chooses at
random, which the flag `tie` decides here (`true`: the timer first). -/

/-- Whether the timer case is taken before an event arriving at `t`. -/
def timerDue (tie : Bool) (deadline t : Nat) : Bool :=
  decide (deadline < t) || (decide (deadline = t) && tie)

/-- The settling loop (lines 198-209) followed by the launch of line 211.
`confdSettleTimeout` is the deadline of the pending `time.After`, the list
holds the times at which change events arrive; the result is the trace of
timed actions and the arrivals the loop did not consume. -/
def settle (tie : Bool) (confdSettleTimeout : Nat) : List Nat → List (Nat × Action) × List Nat
  | [] => ([(confdSettleTimeout, .startMainProgram)], [])
  | t :: ts =>
    if timerDue tie confdSettleTimeout t then
      ([(confdSettleTimeout, .startMainProgram)], t :: ts)
    else
      settle tie (t + settleWindow) ts

/-- The supervisor from line 198 on, confd having been started at `started`:
line 198 arms the first window. -/
def settleFrom (tie : Bool) (started : Nat) (arrivals : List Nat) :
    List (Nat × Action) × List Nat :=
  settle tie (started + settleWindow) arrivals

/-- One iteration taken at time `t`, its actions stamped with `t`; an event
whose case cannot be taken is dropped. -/
def stepAt (s : LoopState) (t : Nat) (ev : Event) : LoopState × List (Nat × Action) :=
  match step s t ev with
  | some (s1, acts) => (s1, acts.map (fun a => (t, a)))
  | none => (s, [])

/-- The timer case taken at its deadline, when it is due before an arrival
at `t`. -/
def fireDue (tie : Bool) (s : LoopState) (t : Nat) : LoopState × List (Nat × Action) :=
  match s.confdSettleTimeout with
  | some d => if timerDue tie d t then stepAt s d .settleTimeout else (s, [])
  | none => (s, [])

/-- The main loop driven by the arrival times of the events other than the
timer; the timer case is inserted at its deadline.  After the last arrival an
armed timer still fires. -/
def drive (tie : Bool) (s : LoopState) : List (Nat × Event) → List (Nat × Action)
  | [] =>
    match s.confdSettleTimeout with
    | some d => (stepAt s d .settleTimeout).2
    | none => []
  | (t, ev) :: rest =>
    let r1 := fireDue tie s t
    let r2 := stepAt r1.1 t ev
    r1.2 ++ r2.2 ++ (if loopEnded r2.1 then [] else drive tie r2.1 rest)

/-! ## Vocabulary of the statements -/

/-- The time of the last arrival of a burst that starts at `t`. -/
def lastArrival (t : Nat) : List Nat → Nat
  | [] => t
  | u :: us => lastArrival u us

/-- Two consecutive arrivals less than one window apart. -/
def withinWindow (a b : Nat) : Prop := a ≤ b ∧ b < a + settleWindow

/-- The change events of a burst, from their arrival times and timestamps. -/
def changeEvents (burst : List (Nat × Nat)) : List (Nat × Event) :=
  burst.map (fun p => (p.1, Event.configChanged p.2))

/-- The number of external termination requests among the choices of a run. -/
def signalCount (es : List (Nat × Event)) : Nat :=
  es.countP (fun p => decide (p.2 = Event.signalReceived))

/-- Whether a choice is the exit notification of confd. -/
def isConfdEnded : Event → Bool
  | .confdEnded _ => true
  | _ => false

/-- Whether a choice is the exit notification of the main program. -/
def isMainProgramEnded : Event → Bool
  | .mainProgramEnded _ => true
  | _ => false

/-- The number of exit notifications of confd among the choices of a run. -/
def confdExits (es : List (Nat × Event)) : Nat :=
  es.countP (fun p => isConfdEnded p.2)

/-- The number of exit notifications of the main program among the choices of
a run. -/
def mainProgramExits (es : List (Nat × Event)) : Nat :=
  es.countP (fun p => isMainProgramEnded p.2)

/-- The choices that belong to reloading: a change event and the timer. -/
def isReloadEvent : Event → Bool
  | .configChanged _ => true
  | .settleTimeout => true
  | _ => false

/-- The exit notification of confd (`true`) or of the main program. -/
def exitEvent (confd : Bool) (err : WaitError) : Event :=
  if confd then .confdEnded err else .mainProgramEnded err

/-- The termination signal to confd (`true`) or to the main program. -/
def sigtermTo (confd : Bool) : Action :=
  if confd then .sigtermConfd else .sigtermMainProgram

/-- Nothing signaled and nothing exited yet, as in steady state. -/
def Quiet (s : LoopState) : Prop :=
  s.confdSignaled = false ∧ s.mainProgramSignaled = false ∧
  s.confdEndedOpen = true ∧ s.mainProgramEndedOpen = true

/-- The steady state with the start time and the timer of `s`: nothing
signaled, nothing exited. -/
def steadyOf (s : LoopState) : LoopState :=
  { initLoop s.mainProgramStartTime with confdSettleTimeout := s.confdSettleTimeout }

/-- What a step does to reloading: the timer afterwards and the actions. -/
def reloadView (r : LoopState × List Action) : Option Nat × List Action :=
  (r.1.confdSettleTimeout, r.2)

/-! ## Exit status -/

theorem logExit_exited (c : Nat) : logExit (waitResult (.exited c)) = (c : Int) := by
  cases c with
  | zero => rfl
  | succ n =>
    have h : (0 : Int) < (n : Int) + 1 := by omega
    simp [waitResult, logExit, h]

theorem exitCode_of_exited (a b : Nat) :
    exitCode (a : Int) (b : Int) = ((if b = 0 then a else b : Nat) : Int) := by
  unfold exitCode
  by_cases hb : b = 0 <;> by_cases ha : a = 0 <;> simp [ha, hb]

/-- Claim C1. When the main loop ends with confd's classified status `w` and the
main program's classified status `k`, the supervisor's exit code is `k` if
`k ≠ 0`, otherwise `w` if `w ≠ 0`, otherwise `0`; the code agrees with the
specification's `resolve`, also as read off the final loop state. -/
theorem exitCode_eq_resolve (w k : Int) :
    exitCode w k = resolve w k ∧
    exitCode w k = (if k ≠ 0 then k else if w ≠ 0 then w else 0) ∧
    (∀ s : LoopState,
      supervisorExit s = resolve s.confdExitStatus s.mainProgramExitStatus) := by
  refine ⟨?_, ?_, ?_⟩
  · unfold exitCode resolve
    by_cases hk : k = 0 <;> by_cases hw : w = 0 <;> simp [hk, hw]
  · unfold exitCode
    by_cases hk : k = 0 <;> by_cases hw : w = 0 <;> simp [hk, hw]
  · intro s
    unfold supervisorExit exitCode resolve
    by_cases hk : s.mainProgramExitStatus = 0 <;>
      by_cases hw : s.confdExitStatus = 0 <;> simp [hk, hw]

/-- Claim C2. `logExit` classifies every wait outcome: an explicit exit code
`c ≥ 0` gives `c` (so exit status 0 gives 0), a death by signal gives 254, any
other wait failure gives 253.  On the `error` values themselves: `nil` gives
0, an `ExitError` with a positive exit status gives that status, an
`ExitError` without one (`ExitStatus() = -1`) gives 254 and an error that is
not an `ExitError` gives 253. -/
theorem logExit_classifies :
    (∀ c : Nat, logExit (waitResult (.exited c)) = (c : Int)) ∧
    logExit (waitResult (.exited 0)) = 0 ∧
    logExit (waitResult .signaled) = 254 ∧
    logExit (waitResult .waitFailed) = 253 ∧
    logExit .nil = 0 ∧
    (∀ c : Nat, logExit (.exitError true ((c : Int) + 1)) = (c : Int) + 1) ∧
    (∀ ok : Bool, logExit (.exitError ok (-1)) = 254) ∧
    logExit .other = 253 := by
  refine ⟨logExit_exited, rfl, rfl, rfl, rfl, ?_, ?_, rfl⟩
  · intro c
    have h : (0 : Int) < (c : Int) + 1 := by omega
    simp [logExit, h]
  · intro ok
    cases ok <;> rfl

/-- Claim C10 as stated fails. A main program that exits with code 64 makes the
supervisor exit with 64, the code of the usage message, and one that exits
with 32 makes it exit with 32, the code of a provisioning failure. -/
theorem exit_classes_overlap :
    exitCode (logExit (waitResult (.exited 0))) (logExit (waitResult (.exited 64)))
      = usageExitCode ∧
    exitCode (logExit (waitResult (.exited 0))) (logExit (waitResult (.exited 32)))
      = provisioningExitCode := by
  decide

/-- Claim C10 as amended. The two fixed codes differ from each other, and the
resolved child status equals one of them exactly when a child exited with that
very code and decides the result: the supervisor exits with 64 (with 32) from
the main loop if and only if the main program exited with 64 (with 32), or the
main program exited with 0 and confd exited with 64 (with 32). -/
theorem fixed_codes_distinct_and_resolved_overlap (confd mainProgram : WaitOutcome) :
    usageExitCode ≠ provisioningExitCode ∧
    (exitCode (logExit (waitResult confd)) (logExit (waitResult mainProgram)) = usageExitCode ↔
      (mainProgram = .exited 64 ∨ (mainProgram = .exited 0 ∧ confd = .exited 64))) ∧
    (exitCode (logExit (waitResult confd)) (logExit (waitResult mainProgram))
        = provisioningExitCode ↔
      (mainProgram = .exited 32 ∨ (mainProgram = .exited 0 ∧ confd = .exited 32))) := by
  refine ⟨by decide, ?_, ?_⟩
  · cases confd <;> cases mainProgram <;>
      simp only [logExit_exited, exitCode_of_exited, usageExitCode] <;>
      first
        | (norm_cast; simp; split_ifs <;> omega)
        | (simp [waitResult, logExit, exitCode]; try omega)
  · cases confd <;> cases mainProgram <;>
      simp only [logExit_exited, exitCode_of_exited, provisioningExitCode] <;>
      first
        | (norm_cast; simp; split_ifs <;> omega)
        | (simp [waitResult, logExit, exitCode]; try omega)

/-! ## The main loop: basic facts about runs -/

theorem run_cons_some {s s2 : LoopState} {now : Nat} {ev : Event}
    {rest : List (Nat × Event)} {acts : List Action}
    (h : run s ((now, ev) :: rest) = some (s2, acts)) :
    loopEnded s = false ∧ ∃ s1 a1 a2, step s now ev = some (s1, a1) ∧
      run s1 rest = some (s2, a2) ∧ acts = a1 ++ a2 := by
  unfold run at h
  by_cases he : loopEnded s = true
  · simp [he] at h
  · simp only [he] at h
    cases hs : step s now ev with
    | none => simp [hs] at h
    | some r1 =>
      obtain ⟨s1, a1⟩ := r1
      cases hr : run s1 rest with
      | none => simp [hs, hr] at h
      | some r2 =>
        obtain ⟨s3, a2⟩ := r2
        simp [hs, hr] at h
        exact ⟨by simpa using he, s1, a1, a2, rfl, by rw [← h.1]; exact hr, h.2.symm⟩

theorem run_cons_of {s s1 s2 : LoopState} {now : Nat} {ev : Event}
    {rest : List (Nat × Event)} {a1 a2 : List Action}
    (he : loopEnded s = false) (hs : step s now ev = some (s1, a1))
    (hr : run s1 rest = some (s2, a2)) :
    run s ((now, ev) :: rest) = some (s2, a1 ++ a2) := by
  simp [run, he, hs, hr]

theorem run_append_some {pre post : List (Nat × Event)} :
    ∀ {s s2 : LoopState} {acts : List Action},
      run s (pre ++ post) = some (s2, acts) →
      ∃ s1 a1 a2, run s pre = some (s1, a1) ∧ run s1 post = some (s2, a2) ∧
        acts = a1 ++ a2 := by
  induction pre with
  | nil =>
    intro s s2 acts h
    exact ⟨s, [], acts, rfl, by simpa using h, rfl⟩
  | cons x pre ih =>
    intro s s2 acts h
    obtain ⟨now, ev⟩ := x
    obtain ⟨he, s1, a1, a2, hs, hr, rfl⟩ := run_cons_some h
    obtain ⟨s3, b1, b2, hr1, hr2, rfl⟩ := ih hr
    exact ⟨s3, a1 ++ b1, b2, run_cons_of he hs hr1, hr2, by simp⟩

theorem run_both_signaled {es : List (Nat × Event)} :
    ∀ {s s2 : LoopState} {acts : List Action},
      s.confdSignaled = true → s.mainProgramSignaled = true →
      run s es = some (s2, acts) →
      s2.confdSignaled = true ∧ s2.mainProgramSignaled = true ∧
      acts.count .sigtermConfd = signalCount es ∧
      acts.count .sigtermMainProgram = signalCount es := by
  induction es with
  | nil =>
    intro s s2 acts hc hm h
    simp [run] at h
    obtain ⟨rfl, rfl⟩ := h
    simp [hc, hm, signalCount]
  | cons x es ih =>
    intro s s2 acts hc hm h
    obtain ⟨now, ev⟩ := x
    obtain ⟨-, s1, a1, a2, hs, hr, rfl⟩ := run_cons_some h
    cases ev with
    | configChanged stamp =>
      simp only [step] at hs
      split at hs <;> simp at hs <;> obtain ⟨rfl, rfl⟩ := hs <;>
        simpa [signalCount] using ih (by simpa using hc) (by simpa using hm) hr
    | settleTimeout =>
      simp only [step] at hs
      split at hs
      · split at hs
        · simp at hs
          obtain ⟨rfl, rfl⟩ := hs
          simpa [signalCount] using ih (by simpa using hc) (by simpa using hm) hr
        · simp at hs
      · simp at hs
    | signalReceived =>
      simp only [step] at hs
      simp at hs
      obtain ⟨rfl, rfl⟩ := hs
      obtain ⟨h1, h2, h3, h4⟩ :=
        ih (s := { s with confdSignaled := true, mainProgramSignaled := true }) rfl rfl hr
      refine ⟨h1, h2, ?_, ?_⟩
      · simp [signalCount, List.count_cons] at h3 ⊢
        omega
      · simp [signalCount, List.count_cons] at h4 ⊢
        omega
    | confdEnded err =>
      simp only [step] at hs
      split at hs
      · simp [hm] at hs
        obtain ⟨rfl, rfl⟩ := hs
        simpa [signalCount] using ih (by simp) (by simp [hm]) hr
      · simp at hs
    | mainProgramEnded err =>
      simp only [step] at hs
      split at hs
      · simp [hc] at hs
        obtain ⟨rfl, rfl⟩ := hs
        simpa [signalCount] using ih (by simp [hc]) (by simp) hr
      · simp at hs

/-! ## Stale change events -/

/-- Claim C6. A change event whose timestamp is earlier than the recorded start
time of the main program leaves the whole loop state, the reload timer
included, as it was and sends nothing; the run continues exactly as if the
event had not been processed, so no `SIGHUP` is issued on its account. -/
theorem stale_change_ignored (s : LoopState) (now stamp : Nat)
    (rest : List (Nat × Event))
    (hstale : stamp < s.mainProgramStartTime) (hloop : loopEnded s = false) :
    step s now (.configChanged stamp) = some (s, []) ∧
    (∀ r, step s now (.configChanged stamp) = some r →
      r.1.confdSettleTimeout = s.confdSettleTimeout ∧ Action.sighupMainProgram ∉ r.2) ∧
    run s ((now, .configChanged stamp) :: rest) = run s rest := by
  have hs : step s now (.configChanged stamp) = some (s, []) := by
    have : ¬ stamp > s.mainProgramStartTime := by omega
    simp [step, this]
  refine ⟨hs, ?_, ?_⟩
  · intro r hr
    rw [hs] at hr
    cases hr
    simp
  · cases hr : run s rest with
    | none => simp [run, hloop, hs, hr]
    | some r => simp [run, hloop, hs, hr]

theorem stale_change_ignored_witness :
    step (initLoop 1000) 1500 (.configChanged 900) = some (initLoop 1000, []) ∧
    run (initLoop 1000) [(1500, .configChanged 900), (1600, .settleTimeout)] = none ∧
    run (initLoop 1000) [(1600, .settleTimeout)] = none := by
  have h := stale_change_ignored (initLoop 1000) 1500 900 [(1600, .settleTimeout)]
    (by decide) (by decide)
  refine ⟨h.1, ?_, by decide⟩
  rw [h.2.2]
  decide

/-! ## External termination request -/

/-- Claim C8. In every loop state, whatever the two signaled flags were, the
case of the external termination request sends `SIGTERM` to confd and to the
main program and leaves both flags true; in every continuation of the run the
flags stay true and the only further `SIGTERM`s are those of further external
termination requests, so no exit notification triggers a signal to the other
process. -/
theorem sigterm_signals_both (s : LoopState) (now : Nat) :
    step s now .signalReceived
      = some ({ s with confdSignaled := true, mainProgramSignaled := true },
          [.sigtermConfd, .sigtermMainProgram]) ∧
    (∀ (rest : List (Nat × Event)) (s2 : LoopState) (acts : List Action),
      run { s with confdSignaled := true, mainProgramSignaled := true } rest
        = some (s2, acts) →
      s2.confdSignaled = true ∧ s2.mainProgramSignaled = true ∧
      acts.count .sigtermConfd = signalCount rest ∧
      acts.count .sigtermMainProgram = signalCount rest) ∧
    (∀ (now2 : Nat) (err : WaitError) (s2 : LoopState),
      s2.confdSignaled = true → s2.mainProgramSignaled = true →
      (∀ r, step s2 now2 (.confdEnded err) = some r → r.2 = []) ∧
      (∀ r, step s2 now2 (.mainProgramEnded err) = some r → r.2 = [])) := by
  refine ⟨rfl, ?_, ?_⟩
  · intro rest s2 acts h
    exact run_both_signaled rfl rfl h
  · intro now2 err s2 hc hm
    constructor
    · intro r hr
      simp only [step] at hr
      split at hr
      · simp [hm] at hr
        rw [← hr]
      · simp at hr
    · intro r hr
      simp only [step] at hr
      split at hr
      · simp [hc] at hr
        rw [← hr]
      · simp at hr

theorem sigterm_signals_both_witness :
    run { initLoop 1000 with confdSignaled := true, mainProgramSignaled := true }
        [(2100, .confdEnded (.exitError true (-1))), (2200, .mainProgramEnded .nil)]
      = some ({ initLoop 1000 with confdSignaled := true, mainProgramSignaled := true,
                                   confdExitStatus := 254, confdEndedOpen := false,
                                   mainProgramEndedOpen := false }, []) ∧
    ([] : List Action).count .sigtermMainProgram
      = signalCount [(2100, .confdEnded (.exitError true (-1))),
                     (2200, .mainProgramEnded .nil)] := by
  have hrun : run { initLoop 1000 with confdSignaled := true, mainProgramSignaled := true }
        [(2100, .confdEnded (.exitError true (-1))), (2200, .mainProgramEnded .nil)]
      = some ({ initLoop 1000 with confdSignaled := true, mainProgramSignaled := true,
                                   confdExitStatus := 254, confdEndedOpen := false,
                                   mainProgramEndedOpen := false }, []) := by decide
  exact ⟨hrun, ((sigterm_signals_both (initLoop 1000) 2000).2.1 _ _ _ hrun).2.2.2⟩

/-! ## Exit notifications and the end of the loop -/

theorem step_confd_tracking {s s1 : LoopState} {now : Nat} {ev : Event}
    {a1 : List Action} (hs : step s now ev = some (s1, a1)) :
    (isConfdEnded ev = false →
      s1.confdEndedOpen = s.confdEndedOpen ∧ s1.confdExitStatus = s.confdExitStatus) ∧
    (∀ err, ev = .confdEnded err →
      s.confdEndedOpen = true ∧ s1.confdEndedOpen = false ∧
      s1.confdExitStatus = logExit err) := by
  cases ev with
  | configChanged stamp =>
    simp only [step] at hs
    split at hs <;> simp at hs <;> obtain ⟨rfl, rfl⟩ := hs <;> simp [isConfdEnded]
  | settleTimeout =>
    simp only [step] at hs
    split at hs
    · split at hs
      · simp at hs
        obtain ⟨rfl, rfl⟩ := hs
        simp [isConfdEnded]
      · simp at hs
    · simp at hs
  | signalReceived =>
    simp [step] at hs
    obtain ⟨rfl, rfl⟩ := hs
    simp [isConfdEnded]
  | confdEnded err =>
    simp only [step] at hs
    split at hs
    · rename_i hopen
      simp at hs
      obtain ⟨rfl, rfl⟩ := hs
      simp [isConfdEnded, hopen]
    · simp at hs
  | mainProgramEnded err =>
    simp only [step] at hs
    split at hs
    · simp at hs
      obtain ⟨rfl, rfl⟩ := hs
      simp [isConfdEnded]
    · simp at hs

theorem step_mainProgram_tracking {s s1 : LoopState} {now : Nat} {ev : Event}
    {a1 : List Action} (hs : step s now ev = some (s1, a1)) :
    (isMainProgramEnded ev = false →
      s1.mainProgramEndedOpen = s.mainProgramEndedOpen ∧
      s1.mainProgramExitStatus = s.mainProgramExitStatus) ∧
    (∀ err, ev = .mainProgramEnded err →
      s.mainProgramEndedOpen = true ∧ s1.mainProgramEndedOpen = false ∧
      s1.mainProgramExitStatus = logExit err) := by
  cases ev with
  | configChanged stamp =>
    simp only [step] at hs
    split at hs <;> simp at hs <;> obtain ⟨rfl, rfl⟩ := hs <;> simp [isMainProgramEnded]
  | settleTimeout =>
    simp only [step] at hs
    split at hs
    · split at hs
      · simp at hs
        obtain ⟨rfl, rfl⟩ := hs
        simp [isMainProgramEnded]
      · simp at hs
    · simp at hs
  | signalReceived =>
    simp [step] at hs
    obtain ⟨rfl, rfl⟩ := hs
    simp [isMainProgramEnded]
  | confdEnded err =>
    simp only [step] at hs
    split at hs
    · simp at hs
      obtain ⟨rfl, rfl⟩ := hs
      simp [isMainProgramEnded]
    · simp at hs
  | mainProgramEnded err =>
    simp only [step] at hs
    split at hs
    · rename_i hopen
      simp at hs
      obtain ⟨rfl, rfl⟩ := hs
      simp [isMainProgramEnded, hopen]
    · simp at hs

theorem confdExits_zero_not_mem {es : List (Nat × Event)} (h : confdExits es = 0)
    (t : Nat) (err : WaitError) : (t, Event.confdEnded err) ∉ es := by
  intro hmem
  have : 0 < confdExits es := by
    unfold confdExits
    exact List.countP_pos_iff.mpr ⟨_, hmem, rfl⟩
  omega

theorem mainProgramExits_zero_not_mem {es : List (Nat × Event)}
    (h : mainProgramExits es = 0)
    (t : Nat) (err : WaitError) : (t, Event.mainProgramEnded err) ∉ es := by
  intro hmem
  have : 0 < mainProgramExits es := by
    unfold mainProgramExits
    exact List.countP_pos_iff.mpr ⟨_, hmem, rfl⟩
  omega

theorem run_confd_tracking {es : List (Nat × Event)} :
    ∀ {s s2 : LoopState} {acts : List Action}, run s es = some (s2, acts) →
      s2.confdEndedOpen = (s.confdEndedOpen && decide (confdExits es = 0)) ∧
      confdExits es ≤ (if s.confdEndedOpen = true then 1 else 0) ∧
      (confdExits es = 0 → s2.confdExitStatus = s.confdExitStatus) ∧
      (∀ t err, (t, Event.confdEnded err) ∈ es → s2.confdExitStatus = logExit err) := by
  induction es with
  | nil =>
    intro s s2 acts h
    simp [run] at h
    obtain ⟨rfl, rfl⟩ := h
    simp [confdExits]
  | cons x es ih =>
    intro s s2 acts h
    obtain ⟨now, ev⟩ := x
    obtain ⟨-, s1, a1, a2, hs, hr, rfl⟩ := run_cons_some h
    obtain ⟨i1, i2, i3, i4⟩ := ih hr
    obtain ⟨k1, k2⟩ := step_confd_tracking hs
    by_cases hev : isConfdEnded ev = true
    · cases ev <;> simp [isConfdEnded] at hev
      rename_i err0
      obtain ⟨o1, o2, o3⟩ := k2 err0 rfl
      have hz : confdExits es = 0 := by
        rw [o2] at i2
        simpa using i2
      have hc : confdExits ((now, Event.confdEnded err0) :: es) = 1 := by
        simp [confdExits, isConfdEnded] at hz ⊢
        simpa [confdExits, isConfdEnded] using hz
      refine ⟨?_, ?_, ?_, ?_⟩
      · rw [i1, o2, hc]
        simp
      · rw [hc, o1]
        simp
      · intro h0
        omega
      · intro t err hmem
        rcases List.mem_cons.mp hmem with heq | hin
        · cases heq
          rw [i3 hz, o3]
        · exact absurd hin (confdExits_zero_not_mem hz t err)
    · have hev2 : isConfdEnded ev = false := by simpa using hev
      obtain ⟨o1, o2⟩ := k1 hev2
      have hc : confdExits ((now, ev) :: es) = confdExits es := by
        simp [confdExits, hev2]
      refine ⟨?_, ?_, ?_, ?_⟩
      · rw [i1, o1, hc]
      · rw [hc, ← o1]
        exact i2
      · intro h0
        rw [hc] at h0
        rw [i3 h0, o2]
      · intro t err hmem
        rcases List.mem_cons.mp hmem with heq | hin
        · cases heq
          simp [isConfdEnded] at hev2
        · exact i4 t err hin

theorem run_mainProgram_tracking {es : List (Nat × Event)} :
    ∀ {s s2 : LoopState} {acts : List Action}, run s es = some (s2, acts) →
      s2.mainProgramEndedOpen
        = (s.mainProgramEndedOpen && decide (mainProgramExits es = 0)) ∧
      mainProgramExits es ≤ (if s.mainProgramEndedOpen = true then 1 else 0) ∧
      (mainProgramExits es = 0 → s2.mainProgramExitStatus = s.mainProgramExitStatus) ∧
      (∀ t err, (t, Event.mainProgramEnded err) ∈ es →
        s2.mainProgramExitStatus = logExit err) := by
  induction es with
  | nil =>
    intro s s2 acts h
    simp [run] at h
    obtain ⟨rfl, rfl⟩ := h
    simp [mainProgramExits]
  | cons x es ih =>
    intro s s2 acts h
    obtain ⟨now, ev⟩ := x
    obtain ⟨-, s1, a1, a2, hs, hr, rfl⟩ := run_cons_some h
    obtain ⟨i1, i2, i3, i4⟩ := ih hr
    obtain ⟨k1, k2⟩ := step_mainProgram_tracking hs
    by_cases hev : isMainProgramEnded ev = true
    · cases ev <;> simp [isMainProgramEnded] at hev
      rename_i err0
      obtain ⟨o1, o2, o3⟩ := k2 err0 rfl
      have hz : mainProgramExits es = 0 := by
        rw [o2] at i2
        simpa using i2
      have hc : mainProgramExits ((now, Event.mainProgramEnded err0) :: es) = 1 := by
        simp [mainProgramExits, isMainProgramEnded] at hz ⊢
        simpa [mainProgramExits, isMainProgramEnded] using hz
      refine ⟨?_, ?_, ?_, ?_⟩
      · rw [i1, o2, hc]
        simp
      · rw [hc, o1]
        simp
      · intro h0
        omega
      · intro t err hmem
        rcases List.mem_cons.mp hmem with heq | hin
        · cases heq
          rw [i3 hz, o3]
        · exact absurd hin (mainProgramExits_zero_not_mem hz t err)
    · have hev2 : isMainProgramEnded ev = false := by simpa using hev
      obtain ⟨o1, o2⟩ := k1 hev2
      have hc : mainProgramExits ((now, ev) :: es) = mainProgramExits es := by
        simp [mainProgramExits, hev2]
      refine ⟨?_, ?_, ?_, ?_⟩
      · rw [i1, o1, hc]
      · rw [hc, ← o1]
        exact i2
      · intro h0
        rw [hc] at h0
        rw [i3 h0, o2]
      · intro t err hmem
        rcases List.mem_cons.mp hmem with heq | hin
        · cases heq
          simp [isMainProgramEnded] at hev2
        · exact i4 t err hin

/-- Claim C9. Along every run of the main loop from its initial state, the loop
has ended after the last processed event if and only if the exit
notifications of confd and of the main program have both been processed (so
it never ends while one of them is outstanding); each of the two
notifications is processed at most once, and the recorded exit status of a
process is the classification of its one notification, or still 0 when there
was none. -/
theorem loop_ends_iff_both_exited (start : Nat) (es : List (Nat × Event))
    (s : LoopState) (acts : List Action)
    (h : run (initLoop start) es = some (s, acts)) :
    (loopEnded s = true ↔ (confdExits es = 1 ∧ mainProgramExits es = 1)) ∧
    (loopEnded s = true ↔
      ((∃ t err, (t, Event.confdEnded err) ∈ es) ∧
       (∃ t err, (t, Event.mainProgramEnded err) ∈ es))) ∧
    confdExits es ≤ 1 ∧ mainProgramExits es ≤ 1 ∧
    (∀ t err, (t, Event.confdEnded err) ∈ es → s.confdExitStatus = logExit err) ∧
    (∀ t err, (t, Event.mainProgramEnded err) ∈ es →
      s.mainProgramExitStatus = logExit err) ∧
    (confdExits es = 0 → s.confdExitStatus = 0) ∧
    (mainProgramExits es = 0 → s.mainProgramExitStatus = 0) := by
  obtain ⟨c1, c2, c3, c4⟩ := run_confd_tracking h
  obtain ⟨m1, m2, m3, m4⟩ := run_mainProgram_tracking h
  simp [initLoop] at c1 c2 c3 m1 m2 m3
  have hcount : loopEnded s = true ↔ (confdExits es = 1 ∧ mainProgramExits es = 1) := by
    unfold loopEnded
    rw [c1, m1]
    simp
    omega
  have hc0 : confdExits es = 1 ↔ ∃ t err, (t, Event.confdEnded err) ∈ es := by
    constructor
    · intro h1
      have hpos : 0 < es.countP (fun p => isConfdEnded p.2) := by
        unfold confdExits at h1
        omega
      obtain ⟨p, hp, hq⟩ := List.countP_pos_iff.mp hpos
      obtain ⟨t, ev⟩ := p
      cases ev <;> simp [isConfdEnded] at hq
      exact ⟨t, _, hp⟩
    · rintro ⟨t, err, hmem⟩
      by_contra hne
      exact confdExits_zero_not_mem (by omega) t err hmem
  have hm0 : mainProgramExits es = 1 ↔ ∃ t err, (t, Event.mainProgramEnded err) ∈ es := by
    constructor
    · intro h1
      have hpos : 0 < es.countP (fun p => isMainProgramEnded p.2) := by
        unfold mainProgramExits at h1
        omega
      obtain ⟨p, hp, hq⟩ := List.countP_pos_iff.mp hpos
      obtain ⟨t, ev⟩ := p
      cases ev <;> simp [isMainProgramEnded] at hq
      exact ⟨t, _, hp⟩
    · rintro ⟨t, err, hmem⟩
      by_contra hne
      exact mainProgramExits_zero_not_mem (by omega) t err hmem
  exact ⟨hcount, by rw [hcount, hc0, hm0], c2, m2, c4, m4, c3, m3⟩

theorem loop_ends_iff_both_exited_witness :
    run (initLoop 1000)
        [(2000, .confdEnded (.exitError true 2)), (2100, .mainProgramEnded .nil)]
      = some ({ initLoop 1000 with confdSignaled := true, mainProgramSignaled := true,
                                   confdExitStatus := 2, confdEndedOpen := false,
                                   mainProgramEndedOpen := false },
              [.sigtermMainProgram]) ∧
    (loopEnded { initLoop 1000 with confdSignaled := true, mainProgramSignaled := true,
                                    confdExitStatus := 2, confdEndedOpen := false,
                                    mainProgramEndedOpen := false } = true ↔
      (confdExits [(2000, .confdEnded (.exitError true 2)), (2100, .mainProgramEnded .nil)]
          = 1 ∧
       mainProgramExits
          [(2000, .confdEnded (.exitError true 2)), (2100, .mainProgramEnded .nil)] = 1)) := by
  have hrun : run (initLoop 1000)
      [(2000, .confdEnded (.exitError true 2)), (2100, .mainProgramEnded .nil)]
      = some ({ initLoop 1000 with confdSignaled := true, mainProgramSignaled := true,
                                   confdExitStatus := 2, confdEndedOpen := false,
                                   mainProgramEndedOpen := false },
              [.sigtermMainProgram]) := by decide
  exact ⟨hrun, (loop_ends_iff_both_exited 1000 _ _ _ hrun).1⟩

/-! ## Unsolicited exits -/

theorem run_quiet {pre : List (Nat × Event)} :
    ∀ {s s0 : LoopState} {a0 : List Action}, Quiet s →
      run s pre = some (s0, a0) →
      ((Action.sigtermConfd ∉ a0 ∧ s0.confdEndedOpen = true) ∨
       (Action.sigtermMainProgram ∉ a0 ∧ s0.mainProgramEndedOpen = true)) →
      Quiet s0 ∧ a0.count .sigtermConfd = 0 ∧ a0.count .sigtermMainProgram = 0 := by
  induction pre with
  | nil =>
    intro s s0 a0 hq h _
    simp [run] at h
    obtain ⟨rfl, rfl⟩ := h
    exact ⟨hq, by simp, by simp⟩
  | cons x pre ih =>
    intro s s0 a0 hq h hun
    obtain ⟨now, ev⟩ := x
    obtain ⟨-, s1, a1, a2, hs, hr, rfl⟩ := run_cons_some h
    obtain ⟨q1, q2, q3, q4⟩ := hq
    have hc := (run_confd_tracking hr).1
    have hm := (run_mainProgram_tracking hr).1
    cases ev with
    | configChanged stamp =>
      simp only [step] at hs
      split at hs <;> simp at hs <;> obtain ⟨rfl, rfl⟩ := hs <;>
        simpa using ih (by exact ⟨q1, q2, q3, q4⟩) hr (by simpa using hun)
    | settleTimeout =>
      simp only [step] at hs
      split at hs
      · split at hs
        · simp at hs
          obtain ⟨rfl, rfl⟩ := hs
          have := ih (by exact ⟨q1, q2, q3, q4⟩) hr (by simpa using hun)
          simpa using this
        · simp at hs
      · simp at hs
    | signalReceived =>
      simp [step] at hs
      obtain ⟨rfl, rfl⟩ := hs
      simp at hun
    | confdEnded err =>
      simp [step, q2, q3] at hs
      obtain ⟨rfl, rfl⟩ := hs
      simp at hc
      simp [hc] at hun
    | mainProgramEnded err =>
      simp [step, q1, q4] at hs
      obtain ⟨rfl, rfl⟩ := hs
      simp at hm
      simp [hm] at hun

theorem run_after_confd_exit {post : List (Nat × Event)} :
    ∀ {s s2 : LoopState} {acts : List Action},
      s.confdSignaled = true → s.confdEndedOpen = false →
      run s post = some (s2, acts) →
      acts.count .sigtermMainProgram = signalCount post := by
  induction post with
  | nil =>
    intro s s2 acts _ _ h
    simp [run] at h
    obtain ⟨rfl, rfl⟩ := h
    simp [signalCount]
  | cons x post ih =>
    intro s s2 acts hsig hclosed h
    obtain ⟨now, ev⟩ := x
    obtain ⟨-, s1, a1, a2, hs, hr, rfl⟩ := run_cons_some h
    cases ev with
    | configChanged stamp =>
      simp only [step] at hs
      split at hs <;> simp at hs <;> obtain ⟨rfl, rfl⟩ := hs <;>
        simpa [signalCount] using ih (by simpa using hsig) (by simpa using hclosed) hr
    | settleTimeout =>
      simp only [step] at hs
      split at hs
      · split at hs
        · simp at hs
          obtain ⟨rfl, rfl⟩ := hs
          have := ih (by simpa using hsig) (by simpa using hclosed) hr
          simpa [signalCount] using this
        · simp at hs
      · simp at hs
    | signalReceived =>
      simp [step] at hs
      obtain ⟨rfl, rfl⟩ := hs
      have := ih (s := { s with confdSignaled := true, mainProgramSignaled := true })
        rfl hclosed hr
      simp [signalCount, List.count_cons] at this ⊢
      omega
    | confdEnded err =>
      simp [step, hclosed] at hs
    | mainProgramEnded err =>
      simp only [step] at hs
      split at hs
      · simp [hsig] at hs
        obtain ⟨rfl, rfl⟩ := hs
        have := ih (by simp [hsig]) (by simpa using hclosed) hr
        simpa [signalCount] using this
      · simp at hs

theorem run_after_mainProgram_exit {post : List (Nat × Event)} :
    ∀ {s s2 : LoopState} {acts : List Action},
      s.mainProgramSignaled = true → s.mainProgramEndedOpen = false →
      run s post = some (s2, acts) →
      acts.count .sigtermConfd = signalCount post := by
  induction post with
  | nil =>
    intro s s2 acts _ _ h
    simp [run] at h
    obtain ⟨rfl, rfl⟩ := h
    simp [signalCount]
  | cons x post ih =>
    intro s s2 acts hsig hclosed h
    obtain ⟨now, ev⟩ := x
    obtain ⟨-, s1, a1, a2, hs, hr, rfl⟩ := run_cons_some h
    cases ev with
    | configChanged stamp =>
      simp only [step] at hs
      split at hs <;> simp at hs <;> obtain ⟨rfl, rfl⟩ := hs <;>
        simpa [signalCount] using ih (by simpa using hsig) (by simpa using hclosed) hr
    | settleTimeout =>
      simp only [step] at hs
      split at hs
      · split at hs
        · simp at hs
          obtain ⟨rfl, rfl⟩ := hs
          have := ih (by simpa using hsig) (by simpa using hclosed) hr
          simpa [signalCount] using this
        · simp at hs
      · simp at hs
    | signalReceived =>
      simp [step] at hs
      obtain ⟨rfl, rfl⟩ := hs
      have := ih (s := { s with confdSignaled := true, mainProgramSignaled := true })
        rfl hclosed hr
      simp [signalCount, List.count_cons] at this ⊢
      omega
    | confdEnded err =>
      simp only [step] at hs
      split at hs
      · simp [hsig] at hs
        obtain ⟨rfl, rfl⟩ := hs
        have := ih (by simp [hsig]) (by simpa using hclosed) hr
        simpa [signalCount] using this
      · simp at hs
    | mainProgramEnded err =>
      simp [step, hclosed] at hs

/-- Claim C3 as stated fails. confd exits unsolicited (nothing was processed
before, so no signal was sent to it), which sends `SIGTERM` to the main
program; an external termination request processed before the main program
has exited sends it a second one. -/
theorem unsolicited_exit_then_sigterm_signals_twice :
    (run (initLoop 1000) []).map Prod.snd = some [] ∧
    (run (initLoop 1000)
        [(5000, .confdEnded (.exitError true 2)), (5100, .signalReceived),
         (5200, .mainProgramEnded (.exitError true (-1)))]).map Prod.snd
      = some [.sigtermMainProgram, .sigtermConfd, .sigtermMainProgram] ∧
    (run (initLoop 1000)
        [(5000, .confdEnded (.exitError true 2)), (5100, .signalReceived),
         (5200, .mainProgramEnded (.exitError true (-1)))]).map
        (fun r => r.2.count (sigtermTo false))
      = some 2 := by
  decide

/-- Claim C3 as amended. When one of the two processes exits unsolicited (no
`SIGTERM` was sent to it before its exit notification is processed), the
other process is sent one `SIGTERM` on account of that exit, and over the
whole run one more for every external termination request processed
afterwards: never zero, and exactly one when no external termination request
follows. -/
theorem unsolicited_exit_signals_other (start : Nat) (confd : Bool)
    (pre post : List (Nat × Event)) (t : Nat) (err : WaitError)
    (s0 s : LoopState) (a0 acts : List Action)
    (hpre : run (initLoop start) pre = some (s0, a0))
    (hun : sigtermTo confd ∉ a0)
    (h : run (initLoop start) (pre ++ (t, exitEvent confd err) :: post) = some (s, acts)) :
    acts.count (sigtermTo (!confd)) = 1 + signalCount post ∧
    1 ≤ acts.count (sigtermTo (!confd)) ∧
    (signalCount post = 0 → acts.count (sigtermTo (!confd)) = 1) := by
  have key : acts.count (sigtermTo (!confd)) = 1 + signalCount post := by
    obtain ⟨s0', a0', a1, hpre', hrest, rfl⟩ := run_append_some h
    rw [hpre] at hpre'
    cases hpre'
    obtain ⟨-, s1, b1, b2, hs, hr, rfl⟩ := run_cons_some hrest
    cases confd with
    | true =>
      simp only [exitEvent, sigtermTo, if_true] at hs hun ⊢
      have hopen : s0.confdEndedOpen = true := by
        by_contra hne
        simp [step, hne] at hs
      obtain ⟨⟨q1, q2, q3, q4⟩, n1, n2⟩ :=
        run_quiet (s := initLoop start) ⟨rfl, rfl, rfl, rfl⟩ hpre (Or.inl ⟨hun, hopen⟩)
      simp [step, q2, q3] at hs
      obtain ⟨rfl, rfl⟩ := hs
      have := run_after_confd_exit (by simp) (by simp) hr
      simp [List.count_append, n2, this, List.count_cons]
      omega
    | false =>
      simp only [exitEvent, sigtermTo] at hs hun ⊢
      simp only [Bool.false_eq_true, if_false] at hs hun
      have hopen : s0.mainProgramEndedOpen = true := by
        by_contra hne
        simp [step, hne] at hs
      obtain ⟨⟨q1, q2, q3, q4⟩, n1, n2⟩ :=
        run_quiet (s := initLoop start) ⟨rfl, rfl, rfl, rfl⟩ hpre (Or.inr ⟨hun, hopen⟩)
      simp [step, q1, q4] at hs
      obtain ⟨rfl, rfl⟩ := hs
      have := run_after_mainProgram_exit (by simp) (by simp) hr
      simp [List.count_append, n1, this, List.count_cons]
      omega
  refine ⟨key, by omega, ?_⟩
  intro h0
  omega

theorem unsolicited_exit_signals_other_witness :
    run (initLoop 1000) [(2000, .configChanged 1500), (3000, .settleTimeout)]
      = some (initLoop 1000, [.sighupMainProgram]) ∧
    sigtermTo true ∉ [Action.sighupMainProgram] ∧
    run (initLoop 1000)
        ([(2000, .configChanged 1500), (3000, .settleTimeout)] ++
          (4000, exitEvent true (.exitError true 2)) ::
            [(4100, .mainProgramEnded (.exitError true (-1)))])
      = some ({ initLoop 1000 with confdSignaled := true, mainProgramSignaled := true,
                                   confdExitStatus := 2, mainProgramExitStatus := 254,
                                   confdEndedOpen := false, mainProgramEndedOpen := false },
              [.sighupMainProgram, .sigtermMainProgram]) ∧
    [Action.sighupMainProgram, Action.sigtermMainProgram].count (sigtermTo (!true))
      = 1 + signalCount [(4100, .mainProgramEnded (.exitError true (-1)))] := by
  have hpre : run (initLoop 1000) [(2000, .configChanged 1500), (3000, .settleTimeout)]
      = some (initLoop 1000, [.sighupMainProgram]) := by decide
  have hun : sigtermTo true ∉ [Action.sighupMainProgram] := by decide
  have h : run (initLoop 1000)
        ([(2000, .configChanged 1500), (3000, .settleTimeout)] ++
          (4000, exitEvent true (.exitError true 2)) ::
            [(4100, .mainProgramEnded (.exitError true (-1)))])
      = some ({ initLoop 1000 with confdSignaled := true, mainProgramSignaled := true,
                                   confdExitStatus := 2, mainProgramExitStatus := 254,
                                   confdEndedOpen := false, mainProgramEndedOpen := false },
              [.sighupMainProgram, .sigtermMainProgram]) := by decide
  exact ⟨hpre, hun, h,
    (unsolicited_exit_signals_other 1000 true _ _ 4000 _ _ _ _ _ hpre hun h).1⟩

/-! ## Reloading while draining -/

/-- Claim C7 as stated fails. A window armed at 2000 is still pending when the
external termination request is processed at 2500; the timer case is taken at
3000 all the same and sends `SIGHUP` to the main program, which has not
exited.  The same happens when draining begins with the exit of confd, and a
change event processed after draining has begun arms a new window. -/
theorem sighup_after_draining_begun :
    (run (initLoop 1000)
        [(2000, .configChanged 1999), (2500, .signalReceived),
         (3000, .settleTimeout)]).map Prod.snd
      = some [.sigtermConfd, .sigtermMainProgram, .sighupMainProgram] ∧
    drive false (initLoop 1000) [(2000, .configChanged 1999), (2500, .signalReceived)]
      = [(2500, .sigtermConfd), (2500, .sigtermMainProgram), (3000, .sighupMainProgram)] ∧
    (run (initLoop 1000)
        [(2000, .configChanged 1999), (2500, .confdEnded (.exitError true 2)),
         (3000, .settleTimeout)]).map Prod.snd
      = some [.sigtermMainProgram, .sighupMainProgram] ∧
    (run (initLoop 1000)
        [(2500, .signalReceived), (2600, .configChanged 2600)]).map
        (fun r => r.1.confdSettleTimeout)
      = some (some 3600) := by
  decide

/-- Claim C7 as amended. Beginning to drain does not touch reloading, and does not
disable it either.  The case of an external termination request or of an exit
notification leaves the reload timer as it was and sends no `SIGHUP`; and in
every loop state, whatever the signaled flags, the recorded statuses and the
exit notifications already processed, a change event and the timer case do to
the timer and send exactly what they do in the steady state with the same
start time and timer, changing nothing else: a change event stamped after the
start of the main program arms a new window, a timer that has elapsed sends
one `SIGHUP`. -/
theorem reload_independent_of_draining (s : LoopState) (now : Nat) (ev : Event) :
    (isReloadEvent ev = false → ∀ r, step s now ev = some r →
      r.1.confdSettleTimeout = s.confdSettleTimeout ∧
      r.1.mainProgramStartTime = s.mainProgramStartTime ∧
      Action.sighupMainProgram ∉ r.2) ∧
    (isReloadEvent ev = true →
      (step s now ev).map reloadView = (step (steadyOf s) now ev).map reloadView ∧
      ∀ r, step s now ev = some r →
        r.1 = { s with confdSettleTimeout := r.1.confdSettleTimeout }) := by
  cases ev with
  | configChanged stamp =>
    refine ⟨by simp [isReloadEvent], fun _ => ⟨?_, ?_⟩⟩
    · by_cases hst : stamp > s.mainProgramStartTime <;>
        simp [step, steadyOf, initLoop, reloadView, hst]
    · intro r hr
      by_cases hst : stamp > s.mainProgramStartTime <;>
        simp [step, hst] at hr <;> rw [← hr]
  | settleTimeout =>
    refine ⟨by simp [isReloadEvent], fun _ => ⟨?_, ?_⟩⟩
    · cases htimer : s.confdSettleTimeout with
      | none => simp [step, steadyOf, initLoop, htimer]
      | some d =>
        by_cases hd : d ≤ now <;>
          simp [step, steadyOf, initLoop, reloadView, htimer, hd]
    · intro r hr
      cases htimer : s.confdSettleTimeout with
      | none => simp [step, htimer] at hr
      | some d =>
        by_cases hd : d ≤ now
        · simp [step, htimer, hd] at hr
          rw [← hr]
        · simp [step, htimer, hd] at hr
  | signalReceived =>
    refine ⟨fun _ r hr => ?_, by simp [isReloadEvent]⟩
    simp [step] at hr
    rw [← hr]
    simp
  | confdEnded err =>
    refine ⟨fun _ r hr => ?_, by simp [isReloadEvent]⟩
    by_cases ho : s.confdEndedOpen = true
    · simp [step, ho] at hr
      rw [← hr]
      cases s.mainProgramSignaled <;> simp
    · simp [step, ho] at hr
  | mainProgramEnded err =>
    refine ⟨fun _ r hr => ?_, by simp [isReloadEvent]⟩
    by_cases ho : s.mainProgramEndedOpen = true
    · simp [step, ho] at hr
      rw [← hr]
      cases s.confdSignaled <;> simp
    · simp [step, ho] at hr

theorem reload_independent_of_draining_witness :
    isReloadEvent .settleTimeout = true ∧
    (step { initLoop 1000 with confdSignaled := true, mainProgramSignaled := true,
                               confdSettleTimeout := some 3000 } 3000 .settleTimeout).map
        reloadView
      = some (none, [.sighupMainProgram]) := by
  refine ⟨rfl, ?_⟩
  rw [((reload_independent_of_draining
    { initLoop 1000 with confdSignaled := true, mainProgramSignaled := true,
                         confdSettleTimeout := some 3000 } 3000 .settleTimeout).2 rfl).1]
  decide

/-! ## Debouncing -/

theorem timerDue_false_of_lt {tie : Bool} {deadline t : Nat} (h : t < deadline) :
    timerDue tie deadline t = false := by
  have h1 : ¬ deadline < t := by omega
  have h2 : ¬ deadline = t := by omega
  simp [timerDue, h1, h2]

theorem settle_of_chain (tie : Bool) (ts : List Nat) :
    ∀ started : Nat, List.Chain withinWindow started ts →
      settle tie (started + settleWindow) ts
        = ([(lastArrival started ts + settleWindow, Action.startMainProgram)], []) := by
  induction ts with
  | nil =>
    intro started _
    rfl
  | cons t ts ih =>
    intro started hch
    obtain ⟨hw, hrest⟩ := List.chain_cons.mp hch
    have hdue : timerDue tie (started + settleWindow) t = false :=
      timerDue_false_of_lt hw.2
    simp only [settle, hdue, lastArrival]
    exact ih t hrest

theorem step_never_starts {s : LoopState} {now : Nat} {ev : Event}
    {r : LoopState × List Action} (hr : step s now ev = some r) :
    Action.startMainProgram ∉ r.2 := by
  cases ev with
  | configChanged stamp =>
    by_cases hst : stamp > s.mainProgramStartTime <;>
      simp [step, hst] at hr <;> rw [← hr] <;> simp
  | settleTimeout =>
    cases htimer : s.confdSettleTimeout with
    | none => simp [step, htimer] at hr
    | some d =>
      by_cases hd : d ≤ now
      · simp [step, htimer, hd] at hr
        rw [← hr]
        simp
      · simp [step, htimer, hd] at hr
  | signalReceived =>
    simp [step] at hr
    rw [← hr]
    simp
  | confdEnded err =>
    by_cases ho : s.confdEndedOpen = true
    · simp [step, ho] at hr
      rw [← hr]
      cases s.mainProgramSignaled <;> simp
    · simp [step, ho] at hr
  | mainProgramEnded err =>
    by_cases ho : s.mainProgramEndedOpen = true
    · simp [step, ho] at hr
      rw [← hr]
      cases s.confdSignaled <;> simp
    · simp [step, ho] at hr

/-- Claim C4. When every change event of the settling phase arrives less than
one window after the previous one (the first less than one window after confd
was started), the settling loop consumes them all and the main program is
launched exactly once, one full window after the last of them (after the
start of confd when there is none); no iteration of the main loop launches it
again. -/
theorem settle_launches_once (tie : Bool) (started : Nat) (arrivals : List Nat)
    (hclose : List.Chain withinWindow started arrivals) :
    settleFrom tie started arrivals
      = ([(lastArrival started arrivals + settleWindow, Action.startMainProgram)], []) ∧
    (∀ (s : LoopState) (now : Nat) (ev : Event) (r : LoopState × List Action),
      step s now ev = some r → Action.startMainProgram ∉ r.2) :=
  ⟨settle_of_chain tie arrivals started hclose, fun _ _ _ _ hr => step_never_starts hr⟩

theorem settle_launches_once_witness :
    List.Chain withinWindow 0 [400, 900, 1800] ∧
    settleFrom true 0 [400, 900, 1800] = ([(2800, Action.startMainProgram)], []) := by
  have hch : List.Chain withinWindow 0 [400, 900, 1800] := by
    simp [withinWindow, settleWindow]
  exact ⟨hch, (settle_launches_once true 0 [400, 900, 1800] hch).1⟩

theorem drive_burst (tie : Bool) (burst : List (Nat × Nat)) :
    ∀ (s : LoopState) (t stamp : Nat),
      loopEnded s = false →
      (∀ d, s.confdSettleTimeout = some d → t < d) →
      (∀ p ∈ (t, stamp) :: burst, s.mainProgramStartTime < p.2) →
      List.Chain (fun a b => withinWindow a.1 b.1) (t, stamp) burst →
      drive tie s (changeEvents ((t, stamp) :: burst))
        = [(lastArrival t (burst.map Prod.fst) + settleWindow,
            Action.sighupMainProgram)] := by
  induction burst with
  | nil =>
    intro s t stamp hloop hquiet hfresh _
    have hst : stamp > s.mainProgramStartTime := hfresh (t, stamp) (by simp)
    have hfire : fireDue tie s t = (s, []) := by
      unfold fireDue
      cases htimer : s.confdSettleTimeout with
      | none => rfl
      | some d => simp [timerDue_false_of_lt (hquiet d htimer)]
    have hloop2 : loopEnded { s with confdSettleTimeout := some (t + settleWindow) }
        = false := by
      simpa [loopEnded] using hloop
    simp [changeEvents, drive, hfire, stepAt, step, hst, hloop2, lastArrival]
  | cons p burst ih =>
    intro s t stamp hloop hquiet hfresh hch
    obtain ⟨t2, stamp2⟩ := p
    obtain ⟨hw, hrest⟩ := List.chain_cons.mp hch
    have hst : stamp > s.mainProgramStartTime := hfresh (t, stamp) (by simp)
    have hfire : fireDue tie s t = (s, []) := by
      unfold fireDue
      cases htimer : s.confdSettleTimeout with
      | none => rfl
      | some d => simp [timerDue_false_of_lt (hquiet d htimer)]
    have hloop2 : loopEnded { s with confdSettleTimeout := some (t + settleWindow) }
        = false := by
      simpa [loopEnded] using hloop
    have hnext := ih { s with confdSettleTimeout := some (t + settleWindow) } t2 stamp2
      hloop2
      (by
        intro d hd
        simp at hd
        have := hw.2
        simp at this
        omega)
      (by
        intro q hq
        exact hfresh q (List.mem_cons_of_mem _ hq))
      hrest
    have hdrive : drive tie s (changeEvents ((t, stamp) :: (t2, stamp2) :: burst))
        = drive tie { s with confdSettleTimeout := some (t + settleWindow) }
            (changeEvents ((t2, stamp2) :: burst)) := by
      simp [changeEvents, drive, hfire, stepAt, step, hst, hloop2]
    rw [hdrive, hnext]
    simp [lastArrival]

/-- Claim C5. In any state of the running loop with no window about to elapse,
a burst of change events, each stamped after the start of the main program and
each arriving less than one window after the previous one, makes the
supervisor send exactly one `SIGHUP` to the main program, one full window
after the last event of the burst, and nothing else. -/
theorem burst_sends_one_sighup (tie : Bool) (s : LoopState) (t stamp : Nat)
    (burst : List (Nat × Nat))
    (hloop : loopEnded s = false)
    (hquiet : ∀ d, s.confdSettleTimeout = some d → t < d)
    (hfresh : ∀ p ∈ (t, stamp) :: burst, s.mainProgramStartTime < p.2)
    (hclose : List.Chain (fun a b => withinWindow a.1 b.1) (t, stamp) burst) :
    drive tie s (changeEvents ((t, stamp) :: burst))
      = [(lastArrival t (burst.map Prod.fst) + settleWindow, Action.sighupMainProgram)] :=
  drive_burst tie burst s t stamp hloop hquiet hfresh hclose

theorem burst_sends_one_sighup_witness :
    drive true (initLoop 1000)
        [(5000, .configChanged 5000), (5200, .configChanged 5200),
         (5400, .configChanged 5400)]
      = [(6400, Action.sighupMainProgram)] :=
  burst_sends_one_sighup true (initLoop 1000) 5000 5000 [(5200, 5200), (5400, 5400)]
    (by decide) (by simp [initLoop]) (by simp [initLoop])
    (by simp [withinWindow, settleWindow])

end ConfdSidecar
